import Mathlib

/-
Verification of py4DSTEM `process/braggdiskdetection/probetemplate.py`.

The module computes an averaged vacuum-probe diffraction pattern from a 4D
scan dataset and turns it into convolution kernels.  Scalars are modelled as
exact rationals (the code works on IEEE floats; all the properties below are
exact-arithmetic statements, with floating-point tolerances read as exact
equalities).  The external primitives imported from `..utils` and scipy
(`get_shift`, `get_shifted_ar`, `get_CoM`, `binary_opening`,
`binary_dilation`) and the numpy transcendental functions (`np.exp`,
`np.sqrt`) are opaque collaborators; they are modelled as fields of an
`Prims` record that parameterises every translated function.

A Python call can end in four observably different ways, which the type
`PyOut` records: a normal array result (`ok`), a result poisoned by a
division by zero — numpy produces NaN/Inf entries and only emits a
RuntimeWarning, it does not raise (`nanArr`) —, a raised exception such as
an IndexError (`err`), and Python's `None` returned by a body that is just
`pass` (`pyNone`).
-/

/-- A 2D real-valued array of shape (qx, qy): a diffraction pattern, probe,
or kernel. -/
abbrev Grid (qx qy : ℕ) := Fin qx → Fin qy → ℚ

/-- A 2D boolean array of shape (qx, qy): a mask. -/
abbrev BGrid (qx qy : ℕ) := Fin qx → Fin qy → Bool

/-- The observable outcome of one of the Python functions: a normal value,
a NaN/Inf-poisoned array produced by a division by zero (numpy emits a
RuntimeWarning and keeps going), a raised exception, or `None`. -/
inductive PyOut (α : Type) where
  | ok (a : α)
  | nanArr
  | err (msg : String)
  | pyNone
deriving DecidableEq

/-- Sequencing of Python computations: a non-`ok` outcome propagates
(a raised exception aborts; a NaN array poisons everything downstream). -/
def PyOut.bind {α β : Type} : PyOut α → (α → PyOut β) → PyOut β
  | .ok a, f => f a
  | .nanArr, _ => .nanArr
  | .err m, _ => .err m
  | .pyNone, _ => .pyNone

instance : Monad PyOut where
  pure := PyOut.ok
  bind := PyOut.bind

/-- The external primitives consumed by `probetemplate.py`
(spec section 6: opaque, assumed-correct collaborators). -/
structure Prims (qx qy : ℕ) where
  get_shift : Grid qx qy → Grid qx qy → ℚ × ℚ
  get_shifted_ar : Grid qx qy → ℚ → ℚ → Grid qx qy
  get_CoM : Grid qx qy → ℚ × ℚ
  binary_opening : BGrid qx qy → ℕ → BGrid qx qy
  binary_dilation : BGrid qx qy → ℕ → BGrid qx qy
  expf : ℚ → ℚ
  sqrtf : ℚ → ℚ

/-- The 4D scan dataset: scan-grid dimensions `R_Nx`, `R_Ny` and the stored
patterns.  `data4D` is the container's storage viewed as a total map; actual
accesses go through the bounds-checked `DataCube.read` below, mirroring
numpy indexing (which raises IndexError out of bounds). -/
structure DataCube (qx qy : ℕ) where
  R_Nx : ℕ
  R_Ny : ℕ
  data4D : ℕ → ℕ → Grid qx qy

/-- Total number of scan positions, `datacube.R_N = R_Nx * R_Ny`. -/
def DataCube.R_N {qx qy : ℕ} (d : DataCube qx qy) : ℕ := d.R_Nx * d.R_Ny

/-- Translation of `datacube.data4D[r, c, :, :]`: returns the pattern when the indices are
in range and raises IndexError otherwise, as numpy does. -/
def DataCube.read {qx qy : ℕ} (d : DataCube qx qy) (r c : ℕ) :
    PyOut (Grid qx qy) :=
  if r < d.R_Nx ∧ c < d.R_Ny then .ok (d.data4D r c) else .err "IndexError"

/-- Translation of `np.sum` of a 2D array. -/
def gridSum {qx qy : ℕ} (g : Grid qx qy) : ℚ := ∑ i, ∑ j, g i j

/-- All entries of a 2D array, row major. -/
def gridEntries {qx qy : ℕ} (g : Grid qx qy) : List ℚ :=
  (List.finRange qx).flatMap fun i => (List.finRange qy).map fun j => g i j

/-- Translation of `np.max` of a 2D array (meaningful for nonempty arrays, the only case
the code exercises; numpy raises on an empty array). -/
def gridMax {qx qy : ℕ} (g : Grid qx qy) : ℚ :=
  (gridEntries g).foldr max ((gridEntries g).headD 0)

/-- Translation of `mask = probe > np.max(probe)*mask_threshold` — the strict elementwise
threshold comparison producing the initial boolean mask. -/
def threshMask {qx qy : ℕ} (g : Grid qx qy) (mask_threshold : ℚ) :
    BGrid qx qy :=
  fun i j => decide (g i j > gridMax g * mask_threshold)

/-- Translation of `probe*mask`: elementwise product of a real array with a boolean mask
(False counts as 0, True as 1, as in numpy). -/
def maskApply {qx qy : ℕ} (g : Grid qx qy) (m : BGrid qx qy) : Grid qx qy :=
  fun i j => g i j * (if m i j then 1 else 0)

/-- One iteration of the averaging loop body at loop index `n ≥ 1`:
estimate the shift of `curr_DP` against the running `probe`, shift it, and
update `probe ← probe*(n-1)/n + curr_DP_shifted/n`. -/
def avgUpdate {qx qy : ℕ} (P : Prims qx qy) (probe curr_DP : Grid qx qy)
    (n : ℕ) : Grid qx qy :=
  let sh := P.get_shift probe curr_DP
  let curr_DP_shifted := P.get_shifted_ar curr_DP sh.1 sh.2
  fun i j => probe i j * ((n : ℚ) - 1) / (n : ℚ) + curr_DP_shifted i j / (n : ℚ)

/-- The running average after the loop iterations `1 .. n` of
`get_average_probe_from_vacuum_scan`.  Iteration `n` reads the pattern at
`(int(n/R_Nx), n % R_Nx)` — the row count is used both as the divisor and
as the modulus base, exactly as in the source. -/
def probeAfter {qx qy : ℕ} (P : Prims qx qy) (d : DataCube qx qy) :
    ℕ → PyOut (Grid qx qy)
  | 0 => d.read 0 0
  | n + 1 => do
      let probe ← probeAfter P d n
      let curr_DP ← d.read ((n + 1) / d.R_Nx) ((n + 1) % d.R_Nx)
      pure (avgUpdate P probe curr_DP (n + 1))

/-- Translation of `get_average_probe_from_vacuum_scan(datacube, mask_threshold,
mask_expansion, mask_opening)`: the loop runs for `n in range(1, R_N)`, so
the accumulator at the end is `probeAfter (R_N - 1)`; then the mask pipeline
(threshold, `binary_opening` with `mask_opening` iterations,
`binary_dilation` with `mask_expansion` iterations) and `probe*mask`. -/
def get_average_probe_from_vacuum_scan {qx qy : ℕ} (P : Prims qx qy)
    (datacube : DataCube qx qy) (mask_threshold : ℚ)
    (mask_expansion mask_opening : ℕ) : PyOut (Grid qx qy) := do
  let probe ← probeAfter P datacube (datacube.R_N - 1)
  let mask := P.binary_dilation
    (P.binary_opening (threshMask probe mask_threshold) mask_opening)
    mask_expansion
  pure (maskApply probe mask)

/-- Translation of `get_average_probe_from_ROI(datacube, *args)`: the body is `pass`, so
the call returns `None` without touching the datacube. -/
def get_average_probe_from_ROI {qx qy : ℕ} (datacube : DataCube qx qy)
    (args : List ℚ) : PyOut (Grid qx qy) := .pyNone

/-- Translation of `get_synthetic_probe(datacube, *args)`: the body is `pass`, so the call
returns `None` without touching the datacube. -/
def get_synthetic_probe {qx qy : ℕ} (datacube : DataCube qx qy)
    (args : List ℚ) : PyOut (Grid qx qy) := .pyNone

/-- Translation of `get_probe_kernel(probe)`: compute the CoM, normalize the probe to unit
sum, shift the center to the array corners.  When `np.sum(probe) = 0` the
normalization divides by zero: numpy returns a NaN array (RuntimeWarning
only, no exception), modelled as `nanArr`. -/
def get_probe_kernel {qx qy : ℕ} (P : Prims qx qy) (probe : Grid qx qy) :
    PyOut (Grid qx qy) :=
  let xyCoM := P.get_CoM probe
  if gridSum probe = 0 then .nanArr
  else
    .ok (P.get_shifted_ar (fun i j => probe i j / gridSum probe)
      (-xyCoM.1) (-xyCoM.2))

/-- Translation of `q2 = (qx-xCoM)**2 + (qy-yCoM)**2` on the
`np.meshgrid(np.arange(Q_Ny), np.arange(Q_Nx))` coordinate grid:
`qx[i,j] = i`, `qy[i,j] = j`. -/
def q2grid {qx qy : ℕ} (P : Prims qx qy) (probe : Grid qx qy) : Grid qx qy :=
  fun i j =>
    ((i : ℚ) - (P.get_CoM probe).1) ^ 2 + ((j : ℚ) - (P.get_CoM probe).2) ^ 2

/-- Translation of `qstd2 = np.sum(q2*probe) / np.sum(probe)`, the intensity-weighted mean
squared radius of the probe. -/
def qstd2 {qx qy : ℕ} (P : Prims qx qy) (probe : Grid qx qy) : ℚ :=
  gridSum (fun i j => q2grid P probe i j * probe i j) / gridSum probe

/-- Translation of `subtr_gaussian = np.exp(-q2 / (2*qstd2*sigma_probe_scale**2))`
(before its normalization). -/
def subtr_gaussian {qx qy : ℕ} (P : Prims qx qy) (probe : Grid qx qy)
    (sigma_probe_scale : ℚ) : Grid qx qy :=
  fun i j =>
    P.expf (-(q2grid P probe i j) / (2 * qstd2 P probe * sigma_probe_scale ^ 2))

/-- Translation of `get_probe_kernel_subtrgaussian(probe, sigma_probe_scale)`: normalize
the probe, subtract a unit-sum Gaussian background, corner-shift with the
CoM computed up front.  A zero `np.sum(probe)`, a zero Gaussian width
`2*qstd2*sigma_probe_scale**2` (which puts NaN/Inf into the exponent), or a
zero `np.sum(subtr_gaussian)` each divide by zero, which in numpy poisons
the kernel with NaN/Inf values without raising: modelled as `nanArr`. -/
def get_probe_kernel_subtrgaussian {qx qy : ℕ} (P : Prims qx qy)
    (probe : Grid qx qy) (sigma_probe_scale : ℚ) : PyOut (Grid qx qy) :=
  let xyCoM := P.get_CoM probe
  if gridSum probe = 0 then .nanArr
  else if 2 * qstd2 P probe * sigma_probe_scale ^ 2 = 0 then .nanArr
  else if gridSum (subtr_gaussian P probe sigma_probe_scale) = 0 then .nanArr
  else
    .ok (P.get_shifted_ar
      (fun i j => probe i j / gridSum probe -
        subtr_gaussian P probe sigma_probe_scale i j /
          gridSum (subtr_gaussian P probe sigma_probe_scale))
      (-xyCoM.1) (-xyCoM.2))

/-- Concrete instantiations of the external primitives, used to evaluate
the translated functions on concrete inputs: the shift estimate is always
(0, 0), shifting is the identity (which preserves every array sum), the CoM
is reported at the origin, the morphology passes fix the mask, and the
transcendental slots are filled with simple rational functions. -/
def idPrims (qx qy : ℕ) : Prims qx qy where
  get_shift := fun _ _ => (0, 0)
  get_shifted_ar := fun g _ _ => g
  get_CoM := fun _ => (0, 0)
  binary_opening := fun m _ => m
  binary_dilation := fun m _ => m
  expf := fun x => x + 2
  sqrtf := fun x => x

/-- A 2 x 2 scan of 1 x 1 patterns with values 0, 1, 2, 3. -/
def cube22 : DataCube 1 1 :=
  ⟨2, 2, fun r c => fun _ _ => ((2 * r + c : ℕ) : ℚ)⟩

/-- A non-square 2 x 3 scan of 1 x 1 patterns with values 10*r + c. -/
def cube23 : DataCube 1 1 :=
  ⟨2, 3, fun r c => fun _ _ => ((10 * r + c : ℕ) : ℚ)⟩

/-- A non-square 1 x 2 scan holding two identical 1 x 1 patterns. -/
def cube12 : DataCube 1 1 := ⟨1, 2, fun _ _ => fun _ _ => 1⟩

/-- A square 2 x 2 scan holding four identical 1 x 1 patterns. -/
def cubeConst22 : DataCube 1 1 := ⟨2, 2, fun _ _ => fun _ _ => 3⟩

/-- A scan with a single scan position (R_N = 1). -/
def cube11 : DataCube 1 1 := ⟨1, 1, fun _ _ => fun _ _ => 5⟩

/-- A scan with no scan positions at all (R_N = 0). -/
def cubeEmpty : DataCube 1 1 := ⟨0, 3, fun _ _ => fun _ _ => 0⟩

/-- A concrete 1 x 2 probe with entries 1 and 2. -/
def probeB : Grid 1 2 := fun _ j => (j : ℚ) + 1

/-- The all-zero 2 x 2 probe. -/
def zeroProbe : Grid 2 2 := fun _ _ => 0

/-- Translation of `logistic_annulus = 1/(1+np.exp(4*qr/blurwidth)) -
1/(1+np.exp(4*(qr-trenchwidth)/blurwidth))` where
`qr = np.sqrt((qx-xCoM)**2+(qy-yCoM)**2) - radius`. -/
def logistic_annulus {qx qy : ℕ} (P : Prims qx qy) (probe : Grid qx qy)
    (radius trenchwidth blurwidth : ℚ) : Grid qx qy :=
  fun i j =>
    let qr := P.sqrtf (((i : ℚ) - (P.get_CoM probe).1) ^ 2 +
      ((j : ℚ) - (P.get_CoM probe).2) ^ 2) - radius
    1 / (1 + P.expf (4 * qr / blurwidth)) -
      1 / (1 + P.expf (4 * (qr - trenchwidth) / blurwidth))

/-- Translation of `get_probe_kernel_logistictrench(probe, radius, trenchwidth,
blurwidth)`: normalize the probe, subtract the unit-sum logistic annulus,
corner-shift with the CoM computed up front.  A zero `np.sum(probe)` or a
zero `np.sum(logistic_annulus)` divides by zero, which in numpy poisons the
kernel with NaN/Inf values without raising: modelled as `nanArr`. -/
def get_probe_kernel_logistictrench {qx qy : ℕ} (P : Prims qx qy)
    (probe : Grid qx qy) (radius trenchwidth blurwidth : ℚ) :
    PyOut (Grid qx qy) :=
  let xyCoM := P.get_CoM probe
  if gridSum probe = 0 then .nanArr
  else if gridSum (logistic_annulus P probe radius trenchwidth blurwidth) = 0
    then .nanArr
  else
    .ok (P.get_shifted_ar
      (fun i j => probe i j / gridSum probe -
        logistic_annulus P probe radius trenchwidth blurwidth i j /
          gridSum (logistic_annulus P probe radius trenchwidth blurwidth))
      (-xyCoM.1) (-xyCoM.2))

theorem PyOut.ok_bind {α β : Type} (a : α) (f : α → PyOut β) :
    (PyOut.ok a) >>= f = f a := rfl

theorem PyOut.err_bind {α β : Type} (m : String) (f : α → PyOut β) :
    (PyOut.err m : PyOut α) >>= f = PyOut.err m := rfl

theorem PyOut.pure_def {α : Type} (a : α) :
    (pure a : PyOut α) = PyOut.ok a := rfl

/-- One-step unfolding of the averaging loop. -/
theorem probeAfter_succ {qx qy : ℕ} (P : Prims qx qy) (d : DataCube qx qy)
    (m : ℕ) :
    probeAfter P d (m + 1) =
      (probeAfter P d m) >>= fun probe =>
        (d.read ((m + 1) / d.R_Nx) ((m + 1) % d.R_Nx)) >>= fun curr_DP =>
          pure (avgUpdate P probe curr_DP (m + 1)) := rfl

/-- C1: at every loop step `n = 1 .. N-1` the running average is updated by
`probe ← probe*(n-1)/n + shifted/n` (where `shifted` is the current pattern
shifted by the estimated offset against the running average); in particular
at `n = 1` the factor `(n-1)/n` is zero, so the accumulator becomes exactly
the shifted pattern number 1 and the initial frame number 0 no longer
contributes to the accumulated value. -/
theorem avg_incremental_update {qx qy : ℕ} (P : Prims qx qy)
    (d : DataCube qx qy) (n : ℕ) (p dp : Grid qx qy) (hn : 1 ≤ n)
    (hp : probeAfter P d (n - 1) = .ok p)
    (hr : d.read (n / d.R_Nx) (n % d.R_Nx) = .ok dp) :
    probeAfter P d n = .ok (fun i j => p i j * ((n : ℚ) - 1) / (n : ℚ) +
      P.get_shifted_ar dp (P.get_shift p dp).1 (P.get_shift p dp).2 i j /
        (n : ℚ)) ∧
    (n = 1 → probeAfter P d n =
      .ok (P.get_shifted_ar dp (P.get_shift p dp).1 (P.get_shift p dp).2)) := by
  obtain ⟨m, rfl⟩ : ∃ m, n = m + 1 :=
    ⟨n - 1, (Nat.succ_pred_eq_of_pos hn).symm⟩
  rw [Nat.add_sub_cancel] at hp
  have hstep : probeAfter P d (m + 1) =
      .ok (avgUpdate P p dp (m + 1)) := by
    rw [probeAfter_succ, hp, PyOut.ok_bind, hr, PyOut.ok_bind, PyOut.pure_def]
  constructor
  · exact hstep
  · intro h1
    have hm : m = 0 := by omega
    subst hm
    rw [hstep]
    congr 1
    funext i j
    simp only [avgUpdate]
    norm_num

/-- C5: iteration `n` of the averaging loop consumes the diffraction
pattern stored at scan position `(n / R_Nx, n % R_Nx)`: the row count
`R_Nx` is used both as the divisor producing the row index and as the
modulus base producing the column index. -/
theorem scan_linear_index_map {qx qy : ℕ} (P : Prims qx qy)
    (d : DataCube qx qy) (n : ℕ) (hn : 1 ≤ n) :
    probeAfter P d n =
      (probeAfter P d (n - 1)) >>= fun probe =>
        (d.read (n / d.R_Nx) (n % d.R_Nx)) >>= fun curr_DP =>
          pure (avgUpdate P probe curr_DP n) := by
  obtain ⟨m, rfl⟩ : ∃ m, n = m + 1 :=
    ⟨n - 1, (Nat.succ_pred_eq_of_pos hn).symm⟩
  rw [Nat.add_sub_cancel]
  exact probeAfter_succ P d m

/-- C4: the value returned by `get_average_probe_from_vacuum_scan` is the
accumulated probe multiplied elementwise by the boolean mask
`binary_dilation(binary_opening(probe > max(probe)*mask_threshold,
mask_opening iterations), mask_expansion iterations)` (strict threshold,
opening before dilation), and every pixel at which that mask is false is
exactly zero in the output. -/
theorem avg_mask_application {qx qy : ℕ} (P : Prims qx qy)
    (d : DataCube qx qy) (thr : ℚ) (me mo : ℕ) (p : Grid qx qy)
    (hp : probeAfter P d (d.R_N - 1) = .ok p) :
    get_average_probe_from_vacuum_scan P d thr me mo =
      .ok (maskApply p
        (P.binary_dilation (P.binary_opening (threshMask p thr) mo) me)) ∧
    ∀ i j, P.binary_dilation (P.binary_opening (threshMask p thr) mo) me i j
        = false →
      maskApply p
        (P.binary_dilation (P.binary_opening (threshMask p thr) mo) me) i j
        = 0 := by
  constructor
  · simp only [get_average_probe_from_vacuum_scan]
    rw [hp, PyOut.ok_bind, PyOut.pure_def]
  · intro i j h
    simp [maskApply, h]

/-- Witness for C1: on a concrete 2 x 2 scan, the accumulator after the
first loop step equals the shifted pattern number 1 (here the pattern read
at scan position (0, 1), since the concrete shift primitive is the
identity); the initial frame (value 0) is gone from the accumulator. -/
theorem avg_incremental_update_witness :
    probeAfter (idPrims 1 1) cube22 1 = .ok (cube22.data4D 0 1) := by
  have h := avg_incremental_update (idPrims 1 1) cube22 1
    (cube22.data4D 0 0) (cube22.data4D 0 1) (by norm_num)
    (by simp [probeAfter, DataCube.read, cube22])
    (by simp [DataCube.read, cube22])
  simpa [idPrims] using h.2 rfl

/-- Witness for C5: on a concrete non-square 2 x 3 scan the loop indexing
divides and reduces by the row count `R_Nx = 2`, so steps 1, 2, 3 read scan
positions (0,1), (1,0), (1,1) with values 1, 10, 11, and the accumulator
after step 3 is ((1/2 + 10/2)·2/3 + 11/3) = 22/3. -/
theorem scan_linear_index_map_witness :
    probeAfter (idPrims 1 1) cube23 3 = .ok (fun _ _ => 22 / 3) := by
  rw [scan_linear_index_map (idPrims 1 1) cube23 3 (by norm_num)]
  simp only [probeAfter, DataCube.read, DataCube.R_N, cube23, idPrims,
    avgUpdate]
  norm_num [PyOut.ok_bind, PyOut.pure_def]

/-- Witness for C4: on a concrete 2 x 2 scan the averaged probe is the
constant 2, every pixel passes the threshold 2·(1/5), the concrete
morphology primitives fix the mask, and the returned array is the probe
with the mask applied. -/
theorem avg_mask_application_witness :
    get_average_probe_from_vacuum_scan (idPrims 1 1) cube22 (1/5) 12 3 =
      .ok (fun _ _ => 2) := by
  have hp : probeAfter (idPrims 1 1) cube22 (cube22.R_N - 1) =
      .ok (fun _ _ => 2) := by
    simp only [probeAfter, DataCube.read, DataCube.R_N, cube22, idPrims,
      avgUpdate]
    norm_num [PyOut.ok_bind, PyOut.pure_def]
  rw [(avg_mask_application (idPrims 1 1) cube22 (1/5) 12 3
    (fun _ _ => 2) hp).1]
  congr 1
  funext i j
  norm_num [maskApply, threshMask, gridMax, gridEntries, idPrims,
    List.finRange_succ_eq_map, List.finRange_zero]

/-- The sum of an elementwise quotient by a constant. -/
theorem gridSum_div {qx qy : ℕ} (g : Grid qx qy) (c : ℚ) :
    gridSum (fun i j => g i j / c) = gridSum g / c := by
  simp only [gridSum, ← Finset.sum_div]

/-- The sum of an elementwise difference. -/
theorem gridSum_sub {qx qy : ℕ} (g h : Grid qx qy) :
    gridSum (fun i j => g i j - h i j) = gridSum g - gridSum h := by
  simp only [gridSum, Finset.sum_sub_distrib]

/-- C2: for every probe with nonzero total sum, and assuming the external
sub-pixel shift primitive preserves array sums, `get_probe_kernel` returns
a kernel whose entries sum to exactly 1. -/
theorem probe_kernel_unit_sum {qx qy : ℕ} (P : Prims qx qy)
    (probe : Grid qx qy) (hs : gridSum probe ≠ 0)
    (hsh : ∀ g a b, gridSum (P.get_shifted_ar g a b) = gridSum g) :
    ∃ k, get_probe_kernel P probe = .ok k ∧ gridSum k = 1 := by
  refine ⟨P.get_shifted_ar (fun i j => probe i j / gridSum probe)
    (-(P.get_CoM probe).1) (-(P.get_CoM probe).2), ?_, ?_⟩
  · simp only [get_probe_kernel]
    rw [if_neg hs]
  · rw [hsh, gridSum_div, div_self hs]

/-- Witness for C2: the concrete 1 x 2 probe (1, 2) has sum 3 and the
identity shift primitive preserves sums, so the kernel sums to 1. -/
theorem probe_kernel_unit_sum_witness :
    ∃ k, get_probe_kernel (idPrims 1 2) probeB = .ok k ∧ gridSum k = 1 :=
  probe_kernel_unit_sum (idPrims 1 2) probeB
    (by norm_num [gridSum, probeB, Fin.sum_univ_succ])
    (fun g a b => rfl)

/-- C3: for every probe with nonzero total sum and nonzero-sum background
arrays (the Gaussian for `get_probe_kernel_subtrgaussian`, with a nonzero
Gaussian width so the exponent is well defined, and the logistic annulus
for `get_probe_kernel_logistictrench`), and assuming the external shift
primitive preserves array sums, both background-subtracted kernels sum to
exactly 0: a unit-sum background is subtracted from the unit-sum
normalized probe. -/
theorem subtr_kernels_zero_sum {qx qy : ℕ} (P : Prims qx qy)
    (probe : Grid qx qy) (sps radius tw bw : ℚ)
    (hs : gridSum probe ≠ 0)
    (hsh : ∀ g a b, gridSum (P.get_shifted_ar g a b) = gridSum g)
    (hden : 2 * qstd2 P probe * sps ^ 2 ≠ 0)
    (hg : gridSum (subtr_gaussian P probe sps) ≠ 0)
    (ha : gridSum (logistic_annulus P probe radius tw bw) ≠ 0) :
    (∃ k, get_probe_kernel_subtrgaussian P probe sps = .ok k ∧
      gridSum k = 0) ∧
    (∃ k, get_probe_kernel_logistictrench P probe radius tw bw = .ok k ∧
      gridSum k = 0) := by
  constructor
  · refine ⟨P.get_shifted_ar
      (fun i j => probe i j / gridSum probe -
        subtr_gaussian P probe sps i j / gridSum (subtr_gaussian P probe sps))
      (-(P.get_CoM probe).1) (-(P.get_CoM probe).2), ?_, ?_⟩
    · simp only [get_probe_kernel_subtrgaussian]
      rw [if_neg hs, if_neg hden, if_neg hg]
    · rw [hsh, gridSum_sub, gridSum_div, gridSum_div, div_self hs,
        div_self hg, sub_self]
  · refine ⟨P.get_shifted_ar
      (fun i j => probe i j / gridSum probe -
        logistic_annulus P probe radius tw bw i j /
          gridSum (logistic_annulus P probe radius tw bw))
      (-(P.get_CoM probe).1) (-(P.get_CoM probe).2), ?_, ?_⟩
    · simp only [get_probe_kernel_logistictrench]
      rw [if_neg hs, if_neg ha]
    · rw [hsh, gridSum_sub, gridSum_div, gridSum_div, div_self hs,
        div_self ha, sub_self]

/-- Witness for C3: on the concrete 1 x 2 probe (1, 2) with the concrete
primitives, the probe sum is 3, the Gaussian width is 4/3, the Gaussian
background sums to 13/4, the logistic annulus (radius 0, trenchwidth 1,
blurwidth 1) sums to 8/7, and both kernels sum to 0. -/
theorem subtr_kernels_zero_sum_witness :
    (∃ k, get_probe_kernel_subtrgaussian (idPrims 1 2) probeB 1 = .ok k ∧
      gridSum k = 0) ∧
    (∃ k, get_probe_kernel_logistictrench (idPrims 1 2) probeB 0 1 1 =
      .ok k ∧ gridSum k = 0) :=
  subtr_kernels_zero_sum (idPrims 1 2) probeB 1 0 1 1
    (by norm_num [gridSum, probeB, Fin.sum_univ_succ])
    (fun g a b => rfl)
    (by norm_num [qstd2, q2grid, gridSum, probeB, idPrims, Fin.sum_univ_succ])
    (by norm_num [subtr_gaussian, qstd2, q2grid, gridSum, probeB, idPrims,
      Fin.sum_univ_succ])
    (by norm_num [logistic_annulus, gridSum, probeB, idPrims,
      Fin.sum_univ_succ])

/-- Counterexample for C8: a non-square 1 x 2 scan holding two identical
patterns (constant 1), with shift primitives satisfying the claim's
hypotheses (zero estimated shift between equal arrays, shifting by (0,0)
is the identity).  The loop's index mapping divides and reduces by the row
count `R_Nx = 1`, so step `n = 1` reads row `1/1 = 1`, which is out of
range: the call raises IndexError instead of returning the masked
pattern. -/
theorem identical_patterns_nonsquare_cex :
    get_average_probe_from_vacuum_scan (idPrims 1 1) cube12 (1/5) 12 3 =
      .err "IndexError" ∧
    get_average_probe_from_vacuum_scan (idPrims 1 1) cube12 (1/5) 12 3 ≠
      .ok (maskApply (fun _ _ => 1)
        ((idPrims 1 1).binary_dilation
          ((idPrims 1 1).binary_opening
            (threshMask (fun _ _ => 1) (1/5)) 3) 12)) := by
  have h : get_average_probe_from_vacuum_scan (idPrims 1 1) cube12 (1/5)
      12 3 = .err "IndexError" := by
    simp only [get_average_probe_from_vacuum_scan, probeAfter,
      DataCube.read, DataCube.R_N, cube12, idPrims, avgUpdate]
    norm_num [PyOut.ok_bind, PyOut.err_bind, PyOut.pure_def]
  exact ⟨h, by rw [h]; simp⟩

/-- C8 (amended): for a square scan grid (`R_Nx = R_Ny`) with at least one
scan position, a dataset whose patterns are all equal to `p` — under the
hypotheses that the shift estimator returns (0,0) on equal arrays and that
shifting by (0,0) is the identity — makes every loop update collapse to
`p*(n-1)/n + p/n = p`, so the function returns `p` multiplied by its
derived mask. -/
theorem identical_patterns_square {qx qy : ℕ} (P : Prims qx qy)
    (d : DataCube qx qy) (p : Grid qx qy) (thr : ℚ) (me mo : ℕ)
    (hsq : d.R_Nx = d.R_Ny) (hN : 1 ≤ d.R_N)
    (hdata : ∀ r c, d.data4D r c = p)
    (hgs : ∀ q, P.get_shift q q = (0, 0))
    (hsh : ∀ q, P.get_shifted_ar q 0 0 = q) :
    get_average_probe_from_vacuum_scan P d thr me mo =
      .ok (maskApply p
        (P.binary_dilation (P.binary_opening (threshMask p thr) mo) me)) := by
  have hx : 0 < d.R_Nx := by
    rcases Nat.eq_zero_or_pos d.R_Nx with h | h
    · rw [DataCube.R_N, h, Nat.zero_mul] at hN; omega
    · exact h
  have hy : 0 < d.R_Ny := hsq ▸ hx
  have key : ∀ n, n < d.R_N → probeAfter P d n = .ok p := by
    intro n
    induction n with
    | zero =>
      intro _
      show d.read 0 0 = .ok p
      rw [DataCube.read, if_pos ⟨hx, hy⟩, hdata]
    | succ m ih =>
      intro hlt
      have hsqN : d.R_N = d.R_Nx * d.R_Nx := by
        rw [DataCube.R_N, ← hsq]
      have hrow : (m + 1) / d.R_Nx < d.R_Nx :=
        Nat.div_lt_of_lt_mul (hsqN ▸ hlt)
      have hcol : (m + 1) % d.R_Nx < d.R_Ny := hsq ▸ Nat.mod_lt _ hx
      rw [probeAfter_succ, ih (Nat.lt_of_succ_lt hlt), PyOut.ok_bind,
        DataCube.read, if_pos ⟨hrow, hcol⟩, PyOut.ok_bind, hdata,
        PyOut.pure_def]
      congr 1
      funext i j
      simp only [avgUpdate, hgs, hsh]
      have hne : ((m : ℚ) + 1) ≠ 0 := by positivity
      push_cast
      field_simp
      ring
  have hfinal := key (d.R_N - 1) (by omega)
  simp only [get_average_probe_from_vacuum_scan]
  rw [hfinal, PyOut.ok_bind, PyOut.pure_def]

/-- Witness for C8 (amended): a square 2 x 2 scan of four identical
constant-3 patterns returns the constant-3 pattern with its derived mask
applied. -/
theorem identical_patterns_square_witness :
    get_average_probe_from_vacuum_scan (idPrims 1 1) cubeConst22 (1/5) 12 3
      = .ok (maskApply (fun _ _ => 3)
        ((idPrims 1 1).binary_dilation
          ((idPrims 1 1).binary_opening
            (threshMask (fun _ _ => 3) (1/5)) 3) 12)) :=
  identical_patterns_square (idPrims 1 1) cubeConst22 (fun _ _ => 3)
    (1/5) 12 3 rfl (by norm_num [DataCube.R_N, cubeConst22])
    (fun r c => rfl) (fun q => rfl) (fun q => rfl)

/-- Counterexample for C9: a dataset with exactly one scan position
(N = 1 < 2).  The loop body never runs, the single pattern (constant 5)
passes the mask pipeline, and the call returns it — no index or shape
error is raised. -/
theorem single_position_returns_cex :
    get_average_probe_from_vacuum_scan (idPrims 1 1) cube11 (1/5) 12 3 =
      .ok (fun _ _ => 5) ∧
    get_average_probe_from_vacuum_scan (idPrims 1 1) cube11 (1/5) 12 3 ≠
      .err "IndexError" := by
  have h : get_average_probe_from_vacuum_scan (idPrims 1 1) cube11 (1/5)
      12 3 = .ok (fun _ _ => 5) := by
    simp only [get_average_probe_from_vacuum_scan, probeAfter,
      DataCube.read, DataCube.R_N, cube11, idPrims, avgUpdate]
    norm_num [PyOut.ok_bind, PyOut.pure_def]
    funext i j
    norm_num [maskApply, threshMask, gridMax, gridEntries,
      List.finRange_succ_eq_map, List.finRange_zero]
  exact ⟨h, by rw [h]; simp⟩

/-- C9 (amended): when the dataset has zero scan positions (`R_N = 0`,
i.e. an empty scan grid), the initial read of the pattern at (0, 0) is out
of bounds and `get_average_probe_from_vacuum_scan` raises IndexError. -/
theorem empty_scan_index_error {qx qy : ℕ} (P : Prims qx qy)
    (d : DataCube qx qy) (thr : ℚ) (me mo : ℕ) (h0 : d.R_N = 0) :
    get_average_probe_from_vacuum_scan P d thr me mo =
      .err "IndexError" := by
  have hread : d.read 0 0 = .err "IndexError" := by
    have hno : ¬(0 < d.R_Nx ∧ 0 < d.R_Ny) := by
      rintro ⟨hx, hy⟩
      rw [DataCube.R_N] at h0
      have := Nat.mul_pos hx hy
      omega
    rw [DataCube.read, if_neg hno]
  have hpa : probeAfter P d (d.R_N - 1) = .err "IndexError" := by
    rw [h0]
    exact hread
  simp only [get_average_probe_from_vacuum_scan]
  rw [hpa, PyOut.err_bind]

/-- Witness for C9 (amended): a scan grid with `R_Nx = 0` (no scan
positions) makes the call raise IndexError. -/
theorem empty_scan_index_error_witness :
    get_average_probe_from_vacuum_scan (idPrims 1 1) cubeEmpty (1/5) 12 3 =
      .err "IndexError" :=
  empty_scan_index_error (idPrims 1 1) cubeEmpty (1/5) 12 3
    (by norm_num [DataCube.R_N, cubeEmpty])

/-- C6: on the all-zero 2 x 2 probe, whose sum is zero, each of the three
kernel generators performs the zero-divisor normalization anyway: numpy
yields a NaN-filled kernel and raises nothing (`nanArr`), rather than
failing with a domain error (`err`). -/
theorem zero_probe_nan_no_domain_check :
    get_probe_kernel (idPrims 2 2) zeroProbe = .nanArr ∧
    get_probe_kernel_subtrgaussian (idPrims 2 2) zeroProbe 1 = .nanArr ∧
    get_probe_kernel_logistictrench (idPrims 2 2) zeroProbe 5 2 1 =
      .nanArr ∧
    (∀ msg, get_probe_kernel (idPrims 2 2) zeroProbe ≠ .err msg) ∧
    (∀ msg, get_probe_kernel_subtrgaussian (idPrims 2 2) zeroProbe 1 ≠
      .err msg) ∧
    (∀ msg, get_probe_kernel_logistictrench (idPrims 2 2) zeroProbe 5 2 1 ≠
      .err msg) := by
  refine ⟨?_, ?_, ?_, ?_, ?_, ?_⟩ <;>
    simp [get_probe_kernel, get_probe_kernel_subtrgaussian,
      get_probe_kernel_logistictrench, gridSum, zeroProbe]

/-- Counterexample for C7: with `radius = 5, trenchwidth = 0,
blurwidth = 1/1000000` on the concrete probe (1, 2), the two logistic
terms coincide, so the annulus sums to zero, its normalization divides by
zero, and the function returns a NaN-poisoned kernel — not the corner-
shifted normalized probe the claim expects. -/
theorem trench_zero_nan_cex :
    get_probe_kernel_logistictrench (idPrims 1 2) probeB 5 0 (1/1000000) =
      .nanArr ∧
    get_probe_kernel_logistictrench (idPrims 1 2) probeB 5 0 (1/1000000) ≠
      .ok ((idPrims 1 2).get_shifted_ar
        (fun i j => probeB i j / gridSum probeB)
        (-((idPrims 1 2).get_CoM probeB).1)
        (-((idPrims 1 2).get_CoM probeB).2)) := by
  have h : get_probe_kernel_logistictrench (idPrims 1 2) probeB 5 0
      (1/1000000) = .nanArr := by
    simp only [get_probe_kernel_logistictrench, logistic_annulus, gridSum,
      probeB, idPrims]
    norm_num [Fin.sum_univ_succ]
  exact ⟨h, by rw [h]; simp⟩

/-- C7 (amended): for any probe with nonzero sum, a zero trenchwidth makes
the logistic annulus identically zero (the two logistic terms are equal),
so the "annulus has near-zero magnitude" part of the claim holds exactly;
but the annulus sum is then zero, its normalization divides by zero, and
`get_probe_kernel_logistictrench` returns a NaN-poisoned kernel instead of
(approximately) the corner-shifted normalized probe. -/
theorem trench_zero_collapse {qx qy : ℕ} (P : Prims qx qy)
    (probe : Grid qx qy) (radius bw : ℚ) (hs : gridSum probe ≠ 0) :
    logistic_annulus P probe radius 0 bw = (fun _ _ => 0) ∧
    get_probe_kernel_logistictrench P probe radius 0 bw = .nanArr := by
  have hla : logistic_annulus P probe radius 0 bw = (fun _ _ => 0) := by
    funext i j
    simp [logistic_annulus, sub_zero]
  refine ⟨hla, ?_⟩
  simp only [get_probe_kernel_logistictrench, hla, if_neg hs]
  simp [gridSum]

/-- Witness for C7 (amended): on the concrete probe (1, 2) (sum 3) with
radius 7, blurwidth 2, a zero trenchwidth collapses the annulus to zero
and the call returns a NaN-poisoned kernel. -/
theorem trench_zero_collapse_witness :
    logistic_annulus (idPrims 1 2) probeB 7 0 2 = (fun _ _ => 0) ∧
    get_probe_kernel_logistictrench (idPrims 1 2) probeB 7 0 2 = .nanArr :=
  trench_zero_collapse (idPrims 1 2) probeB 7 2
    (by norm_num [gridSum, probeB, Fin.sum_univ_succ])

/-- C10: the stub variants `get_average_probe_from_ROI` and
`get_synthetic_probe` return Python's `None` on every input: the result
does not depend on the datacube (it is never read, and the embedding is
pure so nothing is modified), and no not-implemented error is raised. -/
theorem stub_variants_return_none {qx qy : ℕ}
    (d1 d2 : DataCube qx qy) (args1 args2 : List ℚ) :
    get_average_probe_from_ROI d1 args1 = .pyNone ∧
    get_synthetic_probe d1 args1 = .pyNone ∧
    get_average_probe_from_ROI d1 args1 =
      get_average_probe_from_ROI d2 args2 ∧
    get_synthetic_probe d1 args1 = get_synthetic_probe d2 args2 ∧
    (∀ msg, get_average_probe_from_ROI d1 args1 ≠ .err msg) ∧
    (∀ msg, get_synthetic_probe d1 args1 ≠ .err msg) := by
  refine ⟨rfl, rfl, rfl, rfl, ?_, ?_⟩ <;>
    simp [get_average_probe_from_ROI, get_synthetic_probe]

/-- Witness for C10: the stubs applied to a concrete datacube and argument
list return `None` and differ from every raised error. -/
theorem stub_variants_return_none_witness :
    get_average_probe_from_ROI cube11 ([] : List ℚ) = .pyNone ∧
    get_synthetic_probe cube11 ([] : List ℚ) = .pyNone ∧
    get_average_probe_from_ROI cube11 ([] : List ℚ) ≠ .err "NotImplemented" ∧
    get_synthetic_probe cube11 ([] : List ℚ) ≠ .err "NotImplemented" := by
  have h := stub_variants_return_none cube11 cube22 ([] : List ℚ)
    ([5] : List ℚ)
  exact ⟨h.1, h.2.1, h.2.2.2.2.1 "NotImplemented", h.2.2.2.2.2 "NotImplemented"⟩
